import Mathlib

/-!
# Verification of the mechkit notation converter

This file embeds the core of `mechkit/notation.py` — the Mandel6/Mandel9
basis generator, the tensor/Mandel conversion contractions, the shape-based
dispatch, and the Voigt scaling extension — and proves or refutes the
specified properties.

All numeric values occurring in the converter are of the form `a + b·√2`
with `a b : ℚ` (the only irrational constant in the source is
`np.sqrt(2.)`), so the floating-point arithmetic of the source is modelled
exactly in the quadratic field ℚ(√2).  Claims stated "within floating
tolerance" are settled as exact identities of this idealised arithmetic.
-/

namespace Mechkit

attribute [local semireducible] Rat.add Rat.mul Rat.inv Rat.sub

/-- An element `a + b·√2` of the field ℚ(√2).  Every constant appearing in
`mechkit/notation.py` (`1.`, `np.sqrt(2.)/2.`, `1./np.sqrt(2.)`, `2.` …)
lives in this field, so real arithmetic of the source is represented
exactly. -/
@[ext]
structure Q2 where
  a : ℚ
  b : ℚ
  deriving DecidableEq

namespace Q2

instance : Zero Q2 := ⟨⟨0, 0⟩⟩

instance : One Q2 := ⟨⟨1, 0⟩⟩

instance : Add Q2 := ⟨fun x y => ⟨x.a + y.a, x.b + y.b⟩⟩

instance : Neg Q2 := ⟨fun x => ⟨-x.a, -x.b⟩⟩

instance : Mul Q2 := ⟨fun x y => ⟨x.a * y.a + 2 * (x.b * y.b), x.a * y.b + x.b * y.a⟩⟩

instance : CommRing Q2 where
  add_assoc x y z := Q2.ext
    (by show x.a + y.a + z.a = x.a + (y.a + z.a); ring)
    (by show x.b + y.b + z.b = x.b + (y.b + z.b); ring)
  zero_add x := Q2.ext (by show 0 + x.a = x.a; ring) (by show 0 + x.b = x.b; ring)
  add_zero x := Q2.ext (by show x.a + 0 = x.a; ring) (by show x.b + 0 = x.b; ring)
  add_comm x y := Q2.ext
    (by show x.a + y.a = y.a + x.a; ring)
    (by show x.b + y.b = y.b + x.b; ring)
  left_distrib x y z := Q2.ext
    (by show x.a * (y.a + z.a) + 2 * (x.b * (y.b + z.b))
        = x.a * y.a + 2 * (x.b * y.b) + (x.a * z.a + 2 * (x.b * z.b)); ring)
    (by show x.a * (y.b + z.b) + x.b * (y.a + z.a)
        = x.a * y.b + x.b * y.a + (x.a * z.b + x.b * z.a); ring)
  right_distrib x y z := Q2.ext
    (by show (x.a + y.a) * z.a + 2 * ((x.b + y.b) * z.b)
        = x.a * z.a + 2 * (x.b * z.b) + (y.a * z.a + 2 * (y.b * z.b)); ring)
    (by show (x.a + y.a) * z.b + (x.b + y.b) * z.a
        = x.a * z.b + x.b * z.a + (y.a * z.b + y.b * z.a); ring)
  zero_mul x := Q2.ext
    (by show 0 * x.a + 2 * (0 * x.b) = 0; ring)
    (by show 0 * x.b + 0 * x.a = 0; ring)
  mul_zero x := Q2.ext
    (by show x.a * 0 + 2 * (x.b * 0) = 0; ring)
    (by show x.a * 0 + x.b * 0 = 0; ring)
  mul_assoc x y z := Q2.ext
    (by show (x.a * y.a + 2 * (x.b * y.b)) * z.a + 2 * ((x.a * y.b + x.b * y.a) * z.b)
        = x.a * (y.a * z.a + 2 * (y.b * z.b)) + 2 * (x.b * (y.a * z.b + y.b * z.a)); ring)
    (by show (x.a * y.a + 2 * (x.b * y.b)) * z.b + (x.a * y.b + x.b * y.a) * z.a
        = x.a * (y.a * z.b + y.b * z.a) + x.b * (y.a * z.a + 2 * (y.b * z.b)); ring)
  one_mul x := Q2.ext
    (by show 1 * x.a + 2 * (0 * x.b) = x.a; ring)
    (by show 1 * x.b + 0 * x.a = x.b; ring)
  mul_one x := Q2.ext
    (by show x.a * 1 + 2 * (x.b * 0) = x.a; ring)
    (by show x.a * 0 + x.b * 1 = x.b; ring)
  mul_comm x y := Q2.ext
    (by show x.a * y.a + 2 * (x.b * y.b) = y.a * x.a + 2 * (y.b * x.b); ring)
    (by show x.a * y.b + x.b * y.a = y.a * x.b + y.b * x.a; ring)
  neg_add_cancel x := Q2.ext
    (by show -x.a + x.a = 0; ring)
    (by show -x.b + x.b = 0; ring)
  nsmul := nsmulRec
  zsmul := zsmulRec

/-- Division in ℚ(√2) by the conjugate formula; models the float divisions
(`1./factor`) performed by `VoigtConverter`. -/
def inv (x : Q2) : Q2 :=
  ⟨x.a / (x.a ^ 2 - 2 * x.b ^ 2), -x.b / (x.a ^ 2 - 2 * x.b ^ 2)⟩

end Q2

/-- `np.sqrt(2.)` as an element of ℚ(√2). -/
def sqrt2 : Q2 := ⟨0, 1⟩

/-- `self.factor = np.sqrt(2.) / 2.` from `Converter.__init__`:
the value √2/2 = 1/√2. -/
def factor : Q2 := ⟨0, 1 / 2⟩

/-- The constant 1/2 (`1./2.` in `VoigtConverter`). -/
def half : Q2 := ⟨1 / 2, 0⟩

/-- `Converter.get_mandel_base_sym`: the 6 orthonormal dyads spanning the
symmetric 3×3 tensors.  `B[0,0,0]=B[1,1,1]=B[2,2,2]=1`, and
`B[3,1,2]=B[3,2,1]=B[4,0,2]=B[4,2,0]=B[5,0,1]=B[5,1,0]=factor`,
all remaining entries zero. -/
def get_mandel_base_sym (a : Fin 6) (i j : Fin 3) : Q2 :=
  if a = 0 ∧ i = 0 ∧ j = 0 then 1
  else if a = 1 ∧ i = 1 ∧ j = 1 then 1
  else if a = 2 ∧ i = 2 ∧ j = 2 then 1
  else if a = 3 ∧ ((i = 1 ∧ j = 2) ∨ (i = 2 ∧ j = 1)) then factor
  else if a = 4 ∧ ((i = 0 ∧ j = 2) ∨ (i = 2 ∧ j = 0)) then factor
  else if a = 5 ∧ ((i = 0 ∧ j = 1) ∨ (i = 1 ∧ j = 0)) then factor
  else 0

/-- `Converter.get_mandel_base_skw`: the 9-dyad basis.  Entries `0:6` copy
`get_mandel_base_sym`; the skew dyads carry the source's signs:
`B[6,1,2]=-factor, B[6,2,1]=factor, B[7,0,2]=factor, B[7,2,0]=-factor,
B[8,0,1]=-factor, B[8,1,0]=factor`. -/
def get_mandel_base_skw (a : Fin 9) (i j : Fin 3) : Q2 :=
  if h : a.val < 6 then get_mandel_base_sym ⟨a.val, h⟩ i j
  else if a = 6 ∧ i = 1 ∧ j = 2 then -factor
  else if a = 6 ∧ i = 2 ∧ j = 1 then factor
  else if a = 7 ∧ i = 0 ∧ j = 2 then factor
  else if a = 7 ∧ i = 2 ∧ j = 0 then -factor
  else if a = 8 ∧ i = 0 ∧ j = 1 then -factor
  else if a = 8 ∧ i = 1 ∧ j = 0 then factor
  else 0

/-- `self.BASE6` of `Converter.__init__`. -/
abbrev BASE6 : Fin 6 → Fin 3 → Fin 3 → Q2 := get_mandel_base_sym

/-- `self.BASE9` of `Converter.__init__`. -/
abbrev BASE9 : Fin 9 → Fin 3 → Fin 3 → Q2 := get_mandel_base_skw

/-- The pairwise dot-dyad product of a basis:
`sum over i,j of basis[a,i,j]*basis[b,i,j]`. -/
def dotDyad {n : ℕ} (base : Fin n → Fin 3 → Fin 3 → Q2) (a b : Fin n) : Q2 :=
  ∑ i, ∑ j, base a i j * base b i j

/-- `Converter.tensor2_to_mandel`, `np.einsum('aij, ij ->a', base, inp)`. -/
def tensor2_to_mandel {n : ℕ} (inp : Fin 3 → Fin 3 → Q2)
    (base : Fin n → Fin 3 → Fin 3 → Q2) : Fin n → Q2 :=
  fun a => ∑ i, ∑ j, base a i j * inp i j

/-- `Converter.tensor4_to_mandel`, `np.einsum('aij, ijkl, bkl ->ab', base, inp, base)`. -/
def tensor4_to_mandel {n : ℕ} (inp : Fin 3 → Fin 3 → Fin 3 → Fin 3 → Q2)
    (base : Fin n → Fin 3 → Fin 3 → Q2) : Fin n → Fin n → Q2 :=
  fun a b => ∑ i, ∑ j, ∑ k, ∑ l, base a i j * inp i j k l * base b k l

/-- `Converter.mandel_2_to_tensor`, `np.einsum('ajk, a->jk', base, inp)`. -/
def mandel_2_to_tensor {n : ℕ} (inp : Fin n → Q2)
    (base : Fin n → Fin 3 → Fin 3 → Q2) : Fin 3 → Fin 3 → Q2 :=
  fun j k => ∑ a, base a j k * inp a

/-- `Converter.mandel_4_to_tensor`, `np.einsum('ajk, ab, bmn->jkmn', base, inp, base)`. -/
def mandel_4_to_tensor {n : ℕ} (inp : Fin n → Fin n → Q2)
    (base : Fin n → Fin 3 → Fin 3 → Q2) : Fin 3 → Fin 3 → Fin 3 → Fin 3 → Q2 :=
  fun j k m n' => ∑ a, ∑ b, base a j k * inp a b * base b m n'

/-- `Converter.tensor2_to_mandel6`. -/
def tensor2_to_mandel6 (inp : Fin 3 → Fin 3 → Q2) : Fin 6 → Q2 :=
  tensor2_to_mandel inp BASE6

/-- `Converter.tensor2_to_mandel9`. -/
def tensor2_to_mandel9 (inp : Fin 3 → Fin 3 → Q2) : Fin 9 → Q2 :=
  tensor2_to_mandel inp BASE9

/-- `Converter.tensor4_to_mandel6`. -/
def tensor4_to_mandel6 (inp : Fin 3 → Fin 3 → Fin 3 → Fin 3 → Q2) : Fin 6 → Fin 6 → Q2 :=
  tensor4_to_mandel inp BASE6

/-- `Converter.tensor4_to_mandel9`. -/
def tensor4_to_mandel9 (inp : Fin 3 → Fin 3 → Fin 3 → Fin 3 → Q2) : Fin 9 → Fin 9 → Q2 :=
  tensor4_to_mandel inp BASE9

/-- `Converter.mandel6_2_to_tensor`. -/
def mandel6_2_to_tensor (inp : Fin 6 → Q2) : Fin 3 → Fin 3 → Q2 :=
  mandel_2_to_tensor inp BASE6

/-- `Converter.mandel6_4_to_tensor`. -/
def mandel6_4_to_tensor (inp : Fin 6 → Fin 6 → Q2) : Fin 3 → Fin 3 → Fin 3 → Fin 3 → Q2 :=
  mandel_4_to_tensor inp BASE6

/-- `Converter.mandel9_2_to_tensor`. -/
def mandel9_2_to_tensor (inp : Fin 9 → Q2) : Fin 3 → Fin 3 → Q2 :=
  mandel_2_to_tensor inp BASE9

/-- `Converter.mandel9_4_to_tensor`. -/
def mandel9_4_to_tensor (inp : Fin 9 → Fin 9 → Q2) : Fin 3 → Fin 3 → Fin 3 → Fin 3 → Q2 :=
  mandel_4_to_tensor inp BASE9

/-- `Converter.mandel6_2_to_mandel9`: zero-pad, placing the 6 values in slots `0:6`. -/
def mandel6_2_to_mandel9 (inp : Fin 6 → Q2) : Fin 9 → Q2 :=
  fun a => if h : a.val < 6 then inp ⟨a.val, h⟩ else 0

/-- `Converter.mandel6_4_to_mandel9`: zero-pad on both axes. -/
def mandel6_4_to_mandel9 (inp : Fin 6 → Fin 6 → Q2) : Fin 9 → Fin 9 → Q2 :=
  fun a b =>
    if h : a.val < 6 ∧ b.val < 6 then inp ⟨a.val, h.1⟩ ⟨b.val, h.2⟩ else 0

/-- `Converter.mandel9_2_to_mandel6`: truncate to slots `0:6`. -/
def mandel9_2_to_mandel6 (inp : Fin 9 → Q2) : Fin 6 → Q2 :=
  fun a => inp ⟨a.val, by omega⟩

/-- `Converter.mandel9_4_to_mandel6`: truncate to the leading `6 × 6` block. -/
def mandel9_4_to_mandel6 (inp : Fin 9 → Fin 9 → Q2) : Fin 6 → Fin 6 → Q2 :=
  fun a b => inp ⟨a.val, by omega⟩ ⟨b.val, by omega⟩

/-! ### Projection kernels of the two bases -/

/-- Kronecker delta on `Fin 3`, valued in ℚ(√2). -/
def kd (i j : Fin 3) : Q2 := if i = j then 1 else 0

/-- `∑ a, base[a,i,j]·base[a,p,q]`: the kernel of the projection
`T ↦ Σ_a B_a ⟨B_a, T⟩` determined by a basis. -/
def projKer {n : ℕ} (base : Fin n → Fin 3 → Fin 3 → Q2) (i j p q : Fin 3) : Q2 :=
  ∑ a, base a i j * base a p q

/-- Minor symmetry of a fourth-order tensor: invariance under swapping the
first index pair and under swapping the second index pair. -/
def minorSym4 (T : Fin 3 → Fin 3 → Fin 3 → Fin 3 → Q2) : Prop :=
  ∀ i j k l, T i j k l = T j i k l ∧ T i j k l = T i j l k

instance (T : Fin 3 → Fin 3 → Fin 3 → Fin 3 → Q2) : Decidable (minorSym4 T) :=
  inferInstanceAs (Decidable (∀ i j k l, T i j k l = T j i k l ∧ T i j k l = T i j l k))

/-- A concrete fourth-order tensor without minor symmetry:
a single 1 in slot `(0,1,0,0)`. -/
def tNoMinorSym : Fin 3 → Fin 3 → Fin 3 → Fin 3 → Q2 :=
  fun i j k l => if i = 0 ∧ j = 1 ∧ k = 0 ∧ l = 0 then 1 else 0

/-- The elementary dyad `e_u ⊗ e_v`. -/
def dyadE (u v : Fin 3) : Fin 3 → Fin 3 → Q2 :=
  fun i j => (if i = u then 1 else 0) * (if j = v then 1 else 0)

/-- Stated from the claim's wording (for comparison with the source): the
symmetric basis said to consist of `e_i⊗e_i` for dyads 1–3 and
`(e_j⊗e_k + e_k⊗e_j)/√2` for the off-diagonal pairs (2,3), (1,3), (1,2). -/
def claimed_base_sym (a : Fin 6) : Fin 3 → Fin 3 → Q2 :=
  fun i j =>
    if a = 0 then dyadE 0 0 i j
    else if a = 1 then dyadE 1 1 i j
    else if a = 2 then dyadE 2 2 i j
    else if a = 3 then factor * (dyadE 1 2 i j + dyadE 2 1 i j)
    else if a = 4 then factor * (dyadE 0 2 i j + dyadE 2 0 i j)
    else factor * (dyadE 0 1 i j + dyadE 1 0 i j)

/-- Stated from the claim's wording: the extended basis said to consist of
the symmetric basis followed by `(e_j⊗e_k − e_k⊗e_j)/√2` for the same
pairs (2,3), (1,3), (1,2). -/
def claimed_base_skw (a : Fin 9) : Fin 3 → Fin 3 → Q2 :=
  fun i j =>
    if h : a.val < 6 then claimed_base_sym ⟨a.val, h⟩ i j
    else if a = 6 then factor * (dyadE 1 2 i j - dyadE 2 1 i j)
    else if a = 7 then factor * (dyadE 0 2 i j - dyadE 2 0 i j)
    else factor * (dyadE 0 1 i j - dyadE 1 0 i j)

/-! ### Shape classification and dispatch (`get_type_by_shape` and the
three `get_to_*_func` selectors) -/

/-- The six shapes the `types` dict of `get_type_by_shape` recognizes. -/
def recognized_shapes : List (List ℕ) :=
  [[3, 3], [3, 3, 3, 3], [6], [6, 6], [9], [9, 9]]

/-- `Converter.get_type_by_shape`: dict lookup keyed on the exact shape
tuple; a missing key raises `KeyError(shape)`, modelled as `.error shape`
(the error payload is the offending shape). -/
def get_type_by_shape (shape : List ℕ) : Except (List ℕ) String :=
  if shape = [3, 3] then .ok "t_2"
  else if shape = [3, 3, 3, 3] then .ok "t_4"
  else if shape = [6] then .ok "m6_2"
  else if shape = [6, 6] then .ok "m6_4"
  else if shape = [9] then .ok "m9_2"
  else if shape = [9, 9] then .ok "m9_4"
  else .error shape

/-- Names of the conversion methods a dispatch table can select. -/
inductive FnTag where
  | pass_through
  | tensor2_to_mandel6 | tensor4_to_mandel6
  | mandel9_2_to_mandel6 | mandel9_4_to_mandel6
  | tensor2_to_mandel9 | tensor4_to_mandel9
  | mandel6_2_to_mandel9 | mandel6_4_to_mandel9
  | mandel6_2_to_tensor | mandel6_4_to_tensor
  | mandel9_2_to_tensor | mandel9_4_to_tensor
  deriving DecidableEq

/-- `Converter.get_to_mandel6_func`: classify by shape, then look the type
string up in the `functions` dict (a missing function key would raise
`KeyError(type_)`, modelled as `.error (.inr t)`). -/
def get_to_mandel6_func (shape : List ℕ) : Except (List ℕ ⊕ String) FnTag :=
  match get_type_by_shape shape with
  | .error s => .error (.inl s)
  | .ok t =>
      if t = "t_2" then .ok .tensor2_to_mandel6
      else if t = "t_4" then .ok .tensor4_to_mandel6
      else if t = "m6_2" then .ok .pass_through
      else if t = "m6_4" then .ok .pass_through
      else if t = "m9_2" then .ok .mandel9_2_to_mandel6
      else if t = "m9_4" then .ok .mandel9_4_to_mandel6
      else .error (.inr t)

/-- `Converter.get_to_mandel9_func`. -/
def get_to_mandel9_func (shape : List ℕ) : Except (List ℕ ⊕ String) FnTag :=
  match get_type_by_shape shape with
  | .error s => .error (.inl s)
  | .ok t =>
      if t = "t_2" then .ok .tensor2_to_mandel9
      else if t = "t_4" then .ok .tensor4_to_mandel9
      else if t = "m6_2" then .ok .mandel6_2_to_mandel9
      else if t = "m6_4" then .ok .mandel6_4_to_mandel9
      else if t = "m9_2" then .ok .pass_through
      else if t = "m9_4" then .ok .pass_through
      else .error (.inr t)

/-- `Converter.get_to_tensor_func`. -/
def get_to_tensor_func (shape : List ℕ) : Except (List ℕ ⊕ String) FnTag :=
  match get_type_by_shape shape with
  | .error s => .error (.inl s)
  | .ok t =>
      if t = "t_2" then .ok .pass_through
      else if t = "t_4" then .ok .pass_through
      else if t = "m6_2" then .ok .mandel6_2_to_tensor
      else if t = "m6_4" then .ok .mandel6_4_to_tensor
      else if t = "m9_2" then .ok .mandel9_2_to_tensor
      else if t = "m9_4" then .ok .mandel9_4_to_tensor
      else .error (.inr t)

/-! ### Voigt extension (`VoigtConverter`) -/

/-- A Mandel6/Voigt array: shape `(6,)` or `(6, 6)`. -/
inductive VArr where
  | vec (v : Fin 6 → Q2)
  | mat (m : Fin 6 → Fin 6 → Q2)

/-- The numpy slice objects stored by `VoigtConverter.__init__`:
`shear = np.s_[3:6]`, `quadrant1 = np.s_[0:3, 0:3]`,
`quadrant2 = np.s_[0:3, 3:6]`, `quadrant3 = np.s_[3:6, 0:3]`,
`quadrant4 = np.s_[3:6, 3:6]`. -/
inductive VSeg where
  | shear
  | quadrant1
  | quadrant2
  | quadrant3
  | quadrant4
  deriving DecidableEq

/-- The errors the Voigt conversions can raise: `KeyError(voigt_type)` from
the factor-dict lookup, and `IndexError` from applying a two-axis slice to a
one-dimensional array. -/
inductive VErr where
  | key (voigt_type : String)
  | index
  deriving DecidableEq

/-- `self.factors_mandel_to_voigt`: the scaling table of
`VoigtConverter.__init__`; an unknown key yields `none` (`KeyError`). -/
def factors_mandel_to_voigt (voigt_type : String) : Option (List (VSeg × Q2)) :=
  if voigt_type = "stress" then some [(.shear, Q2.inv sqrt2)]
  else if voigt_type = "strain" then some [(.shear, sqrt2)]
  else if voigt_type = "stiffness" then
    some [(.quadrant2, Q2.inv sqrt2), (.quadrant3, Q2.inv sqrt2), (.quadrant4, half)]
  else if voigt_type = "compliance" then
    some [(.quadrant2, sqrt2), (.quadrant3, sqrt2), (.quadrant4, 2)]
  else none

/-- One numpy slice assignment `out[position] = inp[position] * factor`.
On a `(6,)` array `shear` rewrites entries 3–5; a two-axis quadrant slice
raises `IndexError` (`none`).  On a `(6, 6)` array `shear` (`x[3:6]`)
rewrites the whole rows 3–5, and each quadrant rewrites its block. -/
def setSeg (inp acc : VArr) (seg : VSeg) (f : Q2) : Option VArr :=
  match inp, acc, seg with
  | .vec v, .vec w, .shear =>
      some (.vec fun a => if 3 ≤ a.val then v a * f else w a)
  | .vec _, .vec _, _ => none
  | .mat m, .mat w, .shear =>
      some (.mat fun a b => if 3 ≤ a.val then m a b * f else w a b)
  | .mat m, .mat w, .quadrant1 =>
      some (.mat fun a b => if a.val < 3 ∧ b.val < 3 then m a b * f else w a b)
  | .mat m, .mat w, .quadrant2 =>
      some (.mat fun a b => if a.val < 3 ∧ 3 ≤ b.val then m a b * f else w a b)
  | .mat m, .mat w, .quadrant3 =>
      some (.mat fun a b => if 3 ≤ a.val ∧ b.val < 3 then m a b * f else w a b)
  | .mat m, .mat w, .quadrant4 =>
      some (.mat fun a b => if 3 ≤ a.val ∧ 3 ≤ b.val then m a b * f else w a b)
  | _, _, _ => none

/-- The loop of `mandel6_to_voigt`: sequentially apply
`voigt[position] = inp[position] * factor`, reading from `inp` each time. -/
def applyFactors (inp : VArr) : VArr → List (VSeg × Q2) → Except VErr VArr
  | acc, [] => .ok acc
  | acc, (seg, f) :: rest =>
      match setSeg inp acc seg f with
      | some acc2 => applyFactors inp acc2 rest
      | none => .error .index

/-- The loop of `voigt_to_mandel6`: sequentially apply
`mandel[position] = inp[position] * 1./factor`. -/
def applyFactorsInv (inp : VArr) : VArr → List (VSeg × Q2) → Except VErr VArr
  | acc, [] => .ok acc
  | acc, (seg, f) :: rest =>
      match setSeg inp acc seg (Q2.inv f) with
      | some acc2 => applyFactorsInv inp acc2 rest
      | none => .error .index

/-- `VoigtConverter.mandel6_to_voigt`: copy the input
(`voigt = inp.copy()`), then scale each listed segment. -/
def mandel6_to_voigt (inp : VArr) (voigt_type : String) : Except VErr VArr :=
  match factors_mandel_to_voigt voigt_type with
  | none => .error (.key voigt_type)
  | some fs => applyFactors inp inp fs

/-- `VoigtConverter.voigt_to_mandel6`: copy the input, then scale each
listed segment by the reciprocal factor. -/
def voigt_to_mandel6 (inp : VArr) (voigt_type : String) : Except VErr VArr :=
  match factors_mandel_to_voigt voigt_type with
  | none => .error (.key voigt_type)
  | some fs => applyFactorsInv inp inp fs

/-- The quantity keys of the scaling table. -/
def valid_voigt_types : List String := ["stress", "strain", "stiffness", "compliance"]

theorem ker9_eq (i j p q : Fin 3) : projKer BASE9 i j p q = kd i p * kd j q := by
  simp only [projKer, Fin.sum_univ_succ, Fin.sum_univ_zero]
  revert i j p q; decide

theorem ker6_eq (i j p q : Fin 3) :
    projKer BASE6 i j p q = half * (kd i p * kd j q + kd i q * kd j p) := by
  simp only [projKer, Fin.sum_univ_succ, Fin.sum_univ_zero]
  revert i j p q; decide

/-- Contraction against a basis followed by expansion equals integration
against the basis kernel. -/
theorem contract_expand {n : ℕ} (base : Fin n → Fin 3 → Fin 3 → Q2)
    (G : Fin 3 → Fin 3 → Q2) (i j : Fin 3) :
    (∑ a, base a i j * (∑ p, ∑ q, base a p q * G p q))
      = ∑ p, ∑ q, projKer base i j p q * G p q := by
  simp only [Finset.mul_sum]
  rw [Finset.sum_comm]
  refine Finset.sum_congr rfl fun p _ => ?_
  rw [Finset.sum_comm]
  refine Finset.sum_congr rfl fun q _ => ?_
  simp only [projKer, Finset.sum_mul]
  exact Finset.sum_congr rfl fun a _ => by ring

theorem sum_kd_kd (i j : Fin 3) (X : Fin 3 → Fin 3 → Q2) :
    (∑ p, ∑ q, kd i p * kd j q * X p q) = X i j := by
  fin_cases i <;> fin_cases j <;> simp [kd, Fin.sum_univ_three]

theorem sum_ker9 (i j : Fin 3) (X : Fin 3 → Fin 3 → Q2) :
    (∑ p, ∑ q, projKer BASE9 i j p q * X p q) = X i j := by
  simp only [ker9_eq]
  exact sum_kd_kd i j X

theorem sum_ker6 (i j : Fin 3) (X : Fin 3 → Fin 3 → Q2) :
    (∑ p, ∑ q, projKer BASE6 i j p q * X p q) = half * (X i j + X j i) := by
  simp only [ker6_eq]
  fin_cases i <;> fin_cases j <;> simp [kd, Fin.sum_univ_three] <;> ring

theorem sum4_swap (f : Fin 3 → Fin 3 → Fin 3 → Fin 3 → Q2) :
    (∑ p, ∑ q, ∑ r, ∑ s, f p q r s) = ∑ r, ∑ s, ∑ p, ∑ q, f p q r s := by
  have h1 : ∀ g : Fin 3 → Fin 3 → Q2, (∑ y : Fin 3 × Fin 3, g y.1 y.2) = ∑ p, ∑ q, g p q :=
    fun g => Fintype.sum_prod_type' g
  calc (∑ p, ∑ q, ∑ r, ∑ s, f p q r s)
      = ∑ y : Fin 3 × Fin 3, ∑ r, ∑ s, f y.1 y.2 r s :=
        (h1 fun p q => ∑ r, ∑ s, f p q r s).symm
    _ = ∑ y : Fin 3 × Fin 3, ∑ z : Fin 3 × Fin 3, f y.1 y.2 z.1 z.2 :=
        Finset.sum_congr rfl fun y _ => (h1 fun r s => f y.1 y.2 r s).symm
    _ = ∑ z : Fin 3 × Fin 3, ∑ y : Fin 3 × Fin 3, f y.1 y.2 z.1 z.2 := Finset.sum_comm
    _ = ∑ z : Fin 3 × Fin 3, ∑ p, ∑ q, f p q z.1 z.2 :=
        Finset.sum_congr rfl fun z _ => h1 fun p q => f p q z.1 z.2
    _ = ∑ r, ∑ s, ∑ p, ∑ q, f p q r s := h1 fun r s => ∑ p, ∑ q, f p q r s

/-- The reduced matrix, re-grouped: contract the second index pair last. -/
theorem tensor4_to_mandel_regroup {n : ℕ} (base : Fin n → Fin 3 → Fin 3 → Q2)
    (T : Fin 3 → Fin 3 → Fin 3 → Fin 3 → Q2) (a b : Fin n) :
    tensor4_to_mandel T base a b
      = ∑ r, ∑ s, base b r s * (∑ p, ∑ q, base a p q * T p q r s) := by
  calc tensor4_to_mandel T base a b
      = ∑ p, ∑ q, ∑ r, ∑ s, base a p q * T p q r s * base b r s := rfl
    _ = ∑ r, ∑ s, ∑ p, ∑ q, base a p q * T p q r s * base b r s := sum4_swap _
    _ = ∑ r, ∑ s, base b r s * (∑ p, ∑ q, base a p q * T p q r s) := by
        refine Finset.sum_congr rfl fun r _ => Finset.sum_congr rfl fun s _ => ?_
        simp only [Finset.mul_sum]
        exact Finset.sum_congr rfl fun p _ => Finset.sum_congr rfl fun q _ => by ring

/-- Order-2 round trip through a basis, as kernel integration. -/
theorem rt2_eq_ker {n : ℕ} (base : Fin n → Fin 3 → Fin 3 → Q2)
    (T : Fin 3 → Fin 3 → Q2) (i j : Fin 3) :
    mandel_2_to_tensor (tensor2_to_mandel T base) base i j
      = ∑ p, ∑ q, projKer base i j p q * T p q :=
  contract_expand base T i j

/-- Order-4 round trip through a basis, as double kernel integration. -/
theorem rt4_eq_ker {n : ℕ} (base : Fin n → Fin 3 → Fin 3 → Q2)
    (T : Fin 3 → Fin 3 → Fin 3 → Fin 3 → Q2) (i j k l : Fin 3) :
    mandel_4_to_tensor (tensor4_to_mandel T base) base i j k l
      = ∑ r, ∑ s, projKer base k l r s * (∑ p, ∑ q, projKer base i j p q * T p q r s) := by
  calc mandel_4_to_tensor (tensor4_to_mandel T base) base i j k l
      = ∑ a, ∑ b, base a i j * tensor4_to_mandel T base a b * base b k l := rfl
    _ = ∑ a, base a i j * (∑ b, base b k l * tensor4_to_mandel T base a b) := by
        refine Finset.sum_congr rfl fun a _ => ?_
        rw [Finset.mul_sum]
        exact Finset.sum_congr rfl fun b _ => by ring
    _ = ∑ a, base a i j *
          (∑ b, base b k l * (∑ r, ∑ s, base b r s * (∑ p, ∑ q, base a p q * T p q r s))) := by
        refine Finset.sum_congr rfl fun a _ => ?_
        congr 1
        exact Finset.sum_congr rfl fun b _ => by
          rw [tensor4_to_mandel_regroup]
    _ = ∑ a, base a i j *
          (∑ r, ∑ s, projKer base k l r s * (∑ p, ∑ q, base a p q * T p q r s)) := by
        refine Finset.sum_congr rfl fun a _ => ?_
        congr 1
        exact contract_expand base (fun r s => ∑ p, ∑ q, base a p q * T p q r s) k l
    _ = ∑ r, ∑ s, ∑ a, base a i j *
          (projKer base k l r s * (∑ p, ∑ q, base a p q * T p q r s)) := by
        simp only [Finset.mul_sum]
        rw [Finset.sum_comm]
        exact Finset.sum_congr rfl fun r _ => Finset.sum_comm
    _ = ∑ r, ∑ s, projKer base k l r s * (∑ a, base a i j * (∑ p, ∑ q, base a p q * T p q r s)) := by
        refine Finset.sum_congr rfl fun r _ => Finset.sum_congr rfl fun s _ => ?_
        rw [Finset.mul_sum]
        exact Finset.sum_congr rfl fun a _ => by ring
    _ = ∑ r, ∑ s, projKer base k l r s * (∑ p, ∑ q, projKer base i j p q * T p q r s) := by
        refine Finset.sum_congr rfl fun r _ => Finset.sum_congr rfl fun s _ => ?_
        congr 1
        exact contract_expand base (fun p q => T p q r s) i j

/-- Exactness of the Mandel9 order-2 round trip (the 9 dyads span all 3×3
tensors). -/
theorem mandel9_rt2 (T : Fin 3 → Fin 3 → Q2) :
    mandel9_2_to_tensor (tensor2_to_mandel9 T) = T := by
  funext i j
  calc mandel9_2_to_tensor (tensor2_to_mandel9 T) i j
      = ∑ p, ∑ q, projKer BASE9 i j p q * T p q := rt2_eq_ker BASE9 T i j
    _ = T i j := sum_ker9 i j T

/-- Exactness of the Mandel9 order-4 round trip: `basis9 ⊗ basis9` spans the
whole 81-dimensional space of fourth-order tensors. -/
theorem mandel9_rt4 (T : Fin 3 → Fin 3 → Fin 3 → Fin 3 → Q2) :
    mandel9_4_to_tensor (tensor4_to_mandel9 T) = T := by
  funext i j k l
  calc mandel9_4_to_tensor (tensor4_to_mandel9 T) i j k l
      = ∑ r, ∑ s, projKer BASE9 k l r s * (∑ p, ∑ q, projKer BASE9 i j p q * T p q r s) :=
        rt4_eq_ker BASE9 T i j k l
    _ = ∑ p, ∑ q, projKer BASE9 i j p q * T p q k l :=
        sum_ker9 k l (fun r s => ∑ p, ∑ q, projKer BASE9 i j p q * T p q r s)
    _ = T i j k l := sum_ker9 i j (fun p q => T p q k l)

/-- The Mandel6 order-4 round trip symmetrizes over both minor index pairs. -/
theorem mandel6_rt4_eq (T : Fin 3 → Fin 3 → Fin 3 → Fin 3 → Q2) (i j k l : Fin 3) :
    mandel6_4_to_tensor (tensor4_to_mandel6 T) i j k l
      = half * (half * (T i j k l + T j i k l) + half * (T i j l k + T j i l k)) := by
  calc mandel6_4_to_tensor (tensor4_to_mandel6 T) i j k l
      = ∑ r, ∑ s, projKer BASE6 k l r s * (∑ p, ∑ q, projKer BASE6 i j p q * T p q r s) :=
        rt4_eq_ker BASE6 T i j k l
    _ = half * ((∑ p, ∑ q, projKer BASE6 i j p q * T p q k l)
          + (∑ p, ∑ q, projKer BASE6 i j p q * T p q l k)) :=
        sum_ker6 k l (fun r s => ∑ p, ∑ q, projKer BASE6 i j p q * T p q r s)
    _ = half * (half * (T i j k l + T j i k l) + half * (T i j l k + T j i l k)) := by
        rw [sum_ker6 i j (fun p q => T p q k l), sum_ker6 i j (fun p q => T p q l k)]


/-- **C1.** The Mandel9 round-trip is exact for arbitrary (not necessarily
symmetric) inputs of both orders: `to_tensor(to_mandel9(T)) = T` for every
3×3 tensor and every 3×3×3×3 tensor.  Exact identity in the
exact-arithmetic model, hence within any floating tolerance. -/
theorem mandel9_roundtrip_exact :
    (∀ T : Fin 3 → Fin 3 → Q2, mandel9_2_to_tensor (tensor2_to_mandel9 T) = T) ∧
    (∀ T : Fin 3 → Fin 3 → Fin 3 → Fin 3 → Q2,
      mandel9_4_to_tensor (tensor4_to_mandel9 T) = T) :=
  ⟨mandel9_rt2, mandel9_rt4⟩


/-- **C2 (counterexample).** The claim "for every fourth-order tensor lacking
minor symmetry the Mandel9 round-trip loses information" is false: this
tensor lacks minor symmetry yet round-trips exactly. -/
theorem mandel9_lossy_counterexample :
    ¬ minorSym4 tNoMinorSym ∧
      mandel9_4_to_tensor (tensor4_to_mandel9 tNoMinorSym) = tNoMinorSym :=
  ⟨by decide, mandel9_rt4 tNoMinorSym⟩

/-- **C2 (amended).** For every fourth-order tensor lacking minor symmetry,
the Mandel9 round-trip loses nothing: `to_tensor(to_mandel9(T)) = T`,
because the 9 dyads are an orthonormal basis of the full space of 3×3
tensors, so the order-4 transform is a complete change of basis rather than
a proper projection. -/
theorem mandel9_nonsym_roundtrip_exact (T : Fin 3 → Fin 3 → Fin 3 → Fin 3 → Q2)
    (_h : ¬ minorSym4 T) : mandel9_4_to_tensor (tensor4_to_mandel9 T) = T :=
  mandel9_rt4 T

/-- Witness for **C2 (amended)** at the concrete non-minor-symmetric
tensor `tNoMinorSym`. -/
theorem mandel9_nonsym_roundtrip_exact_witness :
    ¬ minorSym4 tNoMinorSym ∧
      mandel9_4_to_tensor (tensor4_to_mandel9 tNoMinorSym) = tNoMinorSym :=
  ⟨by decide, mandel9_nonsym_roundtrip_exact tNoMinorSym (by decide)⟩

/-- **C4.** The Mandel6 order-4 round-trip `to_tensor(to_mandel6(T))`
reproduces `T` exactly when `T` is minor-symmetric and differs from `T`
otherwise (the round trip silently symmetrizes over both minor index
pairs). -/
theorem mandel6_roundtrip_iff_minor_symmetric (T : Fin 3 → Fin 3 → Fin 3 → Fin 3 → Q2) :
    mandel6_4_to_tensor (tensor4_to_mandel6 T) = T ↔ minorSym4 T := by
  constructor
  · intro h i j k l
    constructor
    · calc T i j k l
          = mandel6_4_to_tensor (tensor4_to_mandel6 T) i j k l := by rw [h]
        _ = half * (half * (T i j k l + T j i k l) + half * (T i j l k + T j i l k)) :=
            mandel6_rt4_eq T i j k l
        _ = half * (half * (T j i k l + T i j k l) + half * (T j i l k + T i j l k)) := by
            ring
        _ = mandel6_4_to_tensor (tensor4_to_mandel6 T) j i k l :=
            (mandel6_rt4_eq T j i k l).symm
        _ = T j i k l := by rw [h]
    · calc T i j k l
          = mandel6_4_to_tensor (tensor4_to_mandel6 T) i j k l := by rw [h]
        _ = half * (half * (T i j k l + T j i k l) + half * (T i j l k + T j i l k)) :=
            mandel6_rt4_eq T i j k l
        _ = half * (half * (T i j l k + T j i l k) + half * (T i j k l + T j i k l)) := by
            ring
        _ = mandel6_4_to_tensor (tensor4_to_mandel6 T) i j l k :=
            (mandel6_rt4_eq T i j l k).symm
        _ = T i j l k := by rw [h]
  · intro h
    funext i j k l
    rw [mandel6_rt4_eq]
    have h1 := (h i j k l).1
    have h2 := (h i j k l).2
    have h3 : T j i l k = T i j k l := by rw [← (h j i k l).2, ← h1]
    rw [← h1, ← h2, h3]
    have h4 : half * half * 4 = (1 : Q2) := by decide
    calc half * (half * (T i j k l + T i j k l) + half * (T i j k l + T i j k l))
        = half * half * 4 * T i j k l := by ring
      _ = 1 * T i j k l := by rw [h4]
      _ = T i j k l := one_mul _

theorem base9_first6 :
    ∀ (a : Fin 6) (i j : Fin 3), BASE9 ⟨a.val, by omega⟩ i j = BASE6 a i j := by
  decide

/-- **C10.** Converting tensor input to Mandel6 agrees with converting to
Mandel9 and truncating: the first 6 components (resp. the top-left 6×6
block) of the Mandel9 image coincide with the Mandel6 image, because the
first 6 dyads of the 9-dyad basis are the 6-dyad basis. -/
theorem tensor_to_mandel6_eq_truncated_mandel9 :
    (∀ T : Fin 3 → Fin 3 → Q2,
      tensor2_to_mandel6 T = mandel9_2_to_mandel6 (tensor2_to_mandel9 T)) ∧
    (∀ T : Fin 3 → Fin 3 → Fin 3 → Fin 3 → Q2,
      tensor4_to_mandel6 T = mandel9_4_to_mandel6 (tensor4_to_mandel9 T)) := by
  constructor
  · intro T
    funext a
    simp only [tensor2_to_mandel6, mandel9_2_to_mandel6, tensor2_to_mandel9,
      tensor2_to_mandel]
    exact (Finset.sum_congr rfl fun i _ => Finset.sum_congr rfl fun j _ => by
      rw [base9_first6]).symm
  · intro T
    funext a b
    simp only [tensor4_to_mandel6, mandel9_4_to_mandel6, tensor4_to_mandel9,
      tensor4_to_mandel]
    refine (Finset.sum_congr rfl fun i _ => Finset.sum_congr rfl fun j _ =>
      Finset.sum_congr rfl fun k _ => Finset.sum_congr rfl fun l _ => ?_).symm
    rw [base9_first6, base9_first6]

/-- **C3 (counterexample).** The claim's formula for the skew dyads fails on
the source at dyad 7 (index 6), entry (1,2): the source stores `-factor`
there while `(e_2⊗e_3 − e_3⊗e_2)/√2` has `+factor`. -/
theorem base_skw_sign_counterexample :
    get_mandel_base_skw 6 1 2 ≠ claimed_base_skw 6 1 2 := by
  decide

/-- **C3 (amended).** The symmetric basis is exactly as claimed; the first 6
entries of the extended basis coincide with it; but the three skew dyads of
the source are `(e_3⊗e_2 − e_2⊗e_3)/√2`, `(e_1⊗e_3 − e_3⊗e_1)/√2` and
`(e_2⊗e_1 − e_1⊗e_2)/√2`: relative to the claim's formula the dyads for
pairs (2,3) and (1,2) carry the opposite sign. -/
theorem base_dyads_characterization :
    (∀ (a : Fin 6) (i j : Fin 3), get_mandel_base_sym a i j = claimed_base_sym a i j) ∧
    (∀ (a : Fin 6) (i j : Fin 3),
      get_mandel_base_skw ⟨a.val, by omega⟩ i j = get_mandel_base_sym a i j) ∧
    (∀ i j : Fin 3,
      get_mandel_base_skw 6 i j = factor * (dyadE 2 1 i j - dyadE 1 2 i j)) ∧
    (∀ i j : Fin 3,
      get_mandel_base_skw 7 i j = factor * (dyadE 0 2 i j - dyadE 2 0 i j)) ∧
    (∀ i j : Fin 3,
      get_mandel_base_skw 8 i j = factor * (dyadE 1 0 i j - dyadE 0 1 i j)) := by
  refine ⟨?_, ?_, ?_, ?_, ?_⟩ <;> decide

/-- **C5.** Orthonormality of both bases: for all `a`, `b` below the basis
size, the dot-dyad product `∑ i j, basis[a,i,j]*basis[b,i,j]` equals 1 when
`a = b` and 0 otherwise.  In the exact-arithmetic model the identity is
exact, hence a fortiori within the 1e-10 tolerance allowed by the claim. -/
theorem base_orthonormal :
    (∀ a b : Fin 6, dotDyad BASE6 a b = if a = b then 1 else 0) ∧
    (∀ a b : Fin 9, dotDyad BASE9 a b = if a = b then 1 else 0) := by
  constructor <;>
    (intro a b; simp only [dotDyad, Fin.sum_univ_three]; revert a b; decide)

/-- **C8.** Each of the three entry points raises a classification error
carrying the offending shape exactly when the input's shape is none of the
six recognized ones; for every recognized shape all three dispatch to a
conversion function without any error. -/
theorem classification_error_iff_unrecognized (shape : List ℕ) :
    ((get_to_mandel6_func shape = .error (.inl shape) ∧
      get_to_mandel9_func shape = .error (.inl shape) ∧
      get_to_tensor_func shape = .error (.inl shape)) ↔
        shape ∉ recognized_shapes) ∧
    (((∃ f, get_to_mandel6_func shape = .ok f) ∧
      (∃ f, get_to_mandel9_func shape = .ok f) ∧
      (∃ f, get_to_tensor_func shape = .ok f)) ↔
        shape ∈ recognized_shapes) := by
  by_cases h : shape ∈ recognized_shapes
  · simp only [recognized_shapes, List.mem_cons, List.mem_singleton,
      List.not_mem_nil, or_false] at h
    rcases h with h | h | h | h | h | h <;> subst h <;>
      exact ⟨by simp [recognized_shapes, get_to_mandel6_func, get_to_mandel9_func,
          get_to_tensor_func, get_type_by_shape],
        iff_of_true ⟨⟨_, rfl⟩, ⟨_, rfl⟩, ⟨_, rfl⟩⟩ (by decide)⟩
  · have hne : shape ≠ [3, 3] ∧ shape ≠ [3, 3, 3, 3] ∧ shape ≠ [6] ∧
        shape ≠ [6, 6] ∧ shape ≠ [9] ∧ shape ≠ [9, 9] := by
      simp only [recognized_shapes, List.mem_cons, List.mem_singleton,
        List.not_mem_nil, or_false, not_or] at h
      exact ⟨h.1, h.2.1, h.2.2.1, h.2.2.2.1, h.2.2.2.2.1, h.2.2.2.2.2⟩
    obtain ⟨h1, h2, h3, h4, h5, h6⟩ := hne
    constructor
    · simp [get_to_mandel6_func, get_to_mandel9_func, get_to_tensor_func,
        get_type_by_shape, h, h1, h2, h3, h4, h5, h6]
    · simp [get_to_mandel6_func, get_to_mandel9_func, get_to_tensor_func,
        get_type_by_shape, h, h1, h2, h3, h4, h5, h6]


theorem m2v_vec_stress (v : Fin 6 → Q2) :
    mandel6_to_voigt (.vec v) "stress"
      = .ok (.vec fun a => if 3 ≤ a.val then v a * Q2.inv sqrt2 else v a) := by
  simp [mandel6_to_voigt, factors_mandel_to_voigt, applyFactors, setSeg]

theorem m2v_vec_strain (v : Fin 6 → Q2) :
    mandel6_to_voigt (.vec v) "strain"
      = .ok (.vec fun a => if 3 ≤ a.val then v a * sqrt2 else v a) := by
  simp [mandel6_to_voigt, factors_mandel_to_voigt, applyFactors, setSeg]

theorem m2v_mat_stiffness (m : Fin 6 → Fin 6 → Q2) :
    mandel6_to_voigt (.mat m) "stiffness"
      = .ok (.mat fun a b =>
          if 3 ≤ a.val ∧ 3 ≤ b.val then m a b * half
          else if 3 ≤ a.val ∧ b.val < 3 then m a b * Q2.inv sqrt2
          else if a.val < 3 ∧ 3 ≤ b.val then m a b * Q2.inv sqrt2
          else m a b) := by
  simp [mandel6_to_voigt, factors_mandel_to_voigt, applyFactors, setSeg]

theorem m2v_mat_compliance (m : Fin 6 → Fin 6 → Q2) :
    mandel6_to_voigt (.mat m) "compliance"
      = .ok (.mat fun a b =>
          if 3 ≤ a.val ∧ 3 ≤ b.val then m a b * 2
          else if 3 ≤ a.val ∧ b.val < 3 then m a b * sqrt2
          else if a.val < 3 ∧ 3 ≤ b.val then m a b * sqrt2
          else m a b) := by
  simp [mandel6_to_voigt, factors_mandel_to_voigt, applyFactors, setSeg]

theorem v2m_vec_stress (v : Fin 6 → Q2) :
    voigt_to_mandel6 (.vec v) "stress"
      = .ok (.vec fun a => if 3 ≤ a.val then v a * sqrt2 else v a) := by
  have h : Q2.inv (Q2.inv sqrt2) = sqrt2 := by decide
  simp [voigt_to_mandel6, factors_mandel_to_voigt, applyFactorsInv, setSeg, h]

theorem v2m_vec_strain (v : Fin 6 → Q2) :
    voigt_to_mandel6 (.vec v) "strain"
      = .ok (.vec fun a => if 3 ≤ a.val then v a * Q2.inv sqrt2 else v a) := by
  simp [voigt_to_mandel6, factors_mandel_to_voigt, applyFactorsInv, setSeg]

theorem v2m_mat_stiffness (m : Fin 6 → Fin 6 → Q2) :
    voigt_to_mandel6 (.mat m) "stiffness"
      = .ok (.mat fun a b =>
          if 3 ≤ a.val ∧ 3 ≤ b.val then m a b * 2
          else if 3 ≤ a.val ∧ b.val < 3 then m a b * sqrt2
          else if a.val < 3 ∧ 3 ≤ b.val then m a b * sqrt2
          else m a b) := by
  have h1 : Q2.inv (Q2.inv sqrt2) = sqrt2 := by decide
  have h2 : Q2.inv half = 2 := by decide
  simp [voigt_to_mandel6, factors_mandel_to_voigt, applyFactorsInv, setSeg, h1, h2]

theorem v2m_mat_compliance (m : Fin 6 → Fin 6 → Q2) :
    voigt_to_mandel6 (.mat m) "compliance"
      = .ok (.mat fun a b =>
          if 3 ≤ a.val ∧ 3 ≤ b.val then m a b * half
          else if 3 ≤ a.val ∧ b.val < 3 then m a b * Q2.inv sqrt2
          else if a.val < 3 ∧ 3 ≤ b.val then m a b * Q2.inv sqrt2
          else m a b) := by
  have h2 : Q2.inv (2 : Q2) = half := by decide
  simp [voigt_to_mandel6, factors_mandel_to_voigt, applyFactorsInv, setSeg, h2]

theorem m2v_vec_stiffness (v : Fin 6 → Q2) :
    mandel6_to_voigt (.vec v) "stiffness" = .error .index := by
  simp [mandel6_to_voigt, factors_mandel_to_voigt, applyFactors, setSeg]

theorem m2v_vec_compliance (v : Fin 6 → Q2) :
    mandel6_to_voigt (.vec v) "compliance" = .error .index := by
  simp [mandel6_to_voigt, factors_mandel_to_voigt, applyFactors, setSeg]

theorem v2m_vec_stiffness (v : Fin 6 → Q2) :
    voigt_to_mandel6 (.vec v) "stiffness" = .error .index := by
  simp [voigt_to_mandel6, factors_mandel_to_voigt, applyFactorsInv, setSeg]

theorem v2m_vec_compliance (v : Fin 6 → Q2) :
    voigt_to_mandel6 (.vec v) "compliance" = .error .index := by
  simp [voigt_to_mandel6, factors_mandel_to_voigt, applyFactorsInv, setSeg]

theorem m2v_mat_stress (m : Fin 6 → Fin 6 → Q2) :
    mandel6_to_voigt (.mat m) "stress"
      = .ok (.mat fun a b => if 3 ≤ a.val then m a b * Q2.inv sqrt2 else m a b) := by
  simp [mandel6_to_voigt, factors_mandel_to_voigt, applyFactors, setSeg]

theorem m2v_mat_strain (m : Fin 6 → Fin 6 → Q2) :
    mandel6_to_voigt (.mat m) "strain"
      = .ok (.mat fun a b => if 3 ≤ a.val then m a b * sqrt2 else m a b) := by
  simp [mandel6_to_voigt, factors_mandel_to_voigt, applyFactors, setSeg]

theorem v2m_mat_stress (m : Fin 6 → Fin 6 → Q2) :
    voigt_to_mandel6 (.mat m) "stress"
      = .ok (.mat fun a b => if 3 ≤ a.val then m a b * sqrt2 else m a b) := by
  have h : Q2.inv (Q2.inv sqrt2) = sqrt2 := by decide
  simp [voigt_to_mandel6, factors_mandel_to_voigt, applyFactorsInv, setSeg, h]

theorem v2m_mat_strain (m : Fin 6 → Fin 6 → Q2) :
    voigt_to_mandel6 (.mat m) "strain"
      = .ok (.mat fun a b => if 3 ≤ a.val then m a b * Q2.inv sqrt2 else m a b) := by
  simp [voigt_to_mandel6, factors_mandel_to_voigt, applyFactorsInv, setSeg]

theorem m2v_unknown (x : VArr) (q : String) (h : q ∉ valid_voigt_types) :
    mandel6_to_voigt x q = .error (.key q) := by
  simp only [valid_voigt_types, List.mem_cons, List.mem_singleton,
    List.not_mem_nil, or_false, not_or] at h
  obtain ⟨h1, h2, h3, h4⟩ := h
  simp [mandel6_to_voigt, factors_mandel_to_voigt, h1, h2, h3, h4]

theorem v2m_unknown (x : VArr) (q : String) (h : q ∉ valid_voigt_types) :
    voigt_to_mandel6 x q = .error (.key q) := by
  simp only [valid_voigt_types, List.mem_cons, List.mem_singleton,
    List.not_mem_nil, or_false, not_or] at h
  obtain ⟨h1, h2, h3, h4⟩ := h
  simp [voigt_to_mandel6, factors_mandel_to_voigt, h1, h2, h3, h4]

/-- **C6.** `mandel_to_voigt` copies its input and multiplies exactly the
listed segments by the listed factors — for `stress` the shear entries
`[3,6)` by 1/√2, for `strain` by √2, for `stiffness` the off-diagonal
quadrants by 1/√2 and the lower-right quadrant by 1/2, for `compliance` by
√2, √2 and 2 — leaving every other entry unchanged; `voigt_to_mandel`
multiplies the same segments by the reciprocals of those factors. -/
theorem voigt_scaling_table (v : Fin 6 → Q2) (m : Fin 6 → Fin 6 → Q2) :
    (mandel6_to_voigt (.vec v) "stress"
      = .ok (.vec fun a => if 3 ≤ a.val then v a * Q2.inv sqrt2 else v a)) ∧
    (voigt_to_mandel6 (.vec v) "stress"
      = .ok (.vec fun a => if 3 ≤ a.val then v a * sqrt2 else v a)) ∧
    (mandel6_to_voigt (.vec v) "strain"
      = .ok (.vec fun a => if 3 ≤ a.val then v a * sqrt2 else v a)) ∧
    (voigt_to_mandel6 (.vec v) "strain"
      = .ok (.vec fun a => if 3 ≤ a.val then v a * Q2.inv sqrt2 else v a)) ∧
    (mandel6_to_voigt (.mat m) "stiffness"
      = .ok (.mat fun a b =>
          if 3 ≤ a.val ∧ 3 ≤ b.val then m a b * half
          else if 3 ≤ a.val ∧ b.val < 3 then m a b * Q2.inv sqrt2
          else if a.val < 3 ∧ 3 ≤ b.val then m a b * Q2.inv sqrt2
          else m a b)) ∧
    (voigt_to_mandel6 (.mat m) "stiffness"
      = .ok (.mat fun a b =>
          if 3 ≤ a.val ∧ 3 ≤ b.val then m a b * 2
          else if 3 ≤ a.val ∧ b.val < 3 then m a b * sqrt2
          else if a.val < 3 ∧ 3 ≤ b.val then m a b * sqrt2
          else m a b)) ∧
    (mandel6_to_voigt (.mat m) "compliance"
      = .ok (.mat fun a b =>
          if 3 ≤ a.val ∧ 3 ≤ b.val then m a b * 2
          else if 3 ≤ a.val ∧ b.val < 3 then m a b * sqrt2
          else if a.val < 3 ∧ 3 ≤ b.val then m a b * sqrt2
          else m a b)) ∧
    (voigt_to_mandel6 (.mat m) "compliance"
      = .ok (.mat fun a b =>
          if 3 ≤ a.val ∧ 3 ≤ b.val then m a b * half
          else if 3 ≤ a.val ∧ b.val < 3 then m a b * Q2.inv sqrt2
          else if a.val < 3 ∧ 3 ≤ b.val then m a b * Q2.inv sqrt2
          else m a b)) :=
  ⟨m2v_vec_stress v, v2m_vec_stress v, m2v_vec_strain v, v2m_vec_strain v,
    m2v_mat_stiffness m, v2m_mat_stiffness m, m2v_mat_compliance m,
    v2m_mat_compliance m⟩

/-- **C7.** For each quantity type and a Mandel6 array of the matching
order, converting to Voigt and back is the identity (exactly, in the
exact-arithmetic model). -/
theorem voigt_roundtrip (v : Fin 6 → Q2) (m : Fin 6 → Fin 6 → Q2) :
    ((mandel6_to_voigt (.vec v) "stress").bind
        (fun y => voigt_to_mandel6 y "stress") = .ok (.vec v)) ∧
    ((mandel6_to_voigt (.vec v) "strain").bind
        (fun y => voigt_to_mandel6 y "strain") = .ok (.vec v)) ∧
    ((mandel6_to_voigt (.mat m) "stiffness").bind
        (fun y => voigt_to_mandel6 y "stiffness") = .ok (.mat m)) ∧
    ((mandel6_to_voigt (.mat m) "compliance").bind
        (fun y => voigt_to_mandel6 y "compliance") = .ok (.mat m)) := by
  have hs : Q2.inv sqrt2 * sqrt2 = 1 := by decide
  have hs' : sqrt2 * Q2.inv sqrt2 = 1 := by decide
  have hh : half * 2 = (1 : Q2) := by decide
  have hh' : (2 : Q2) * half = 1 := by decide
  refine ⟨?_, ?_, ?_, ?_⟩
  · rw [m2v_vec_stress]
    simp only [Except.bind, v2m_vec_stress]
    congr 1
    congr 1
    funext a
    by_cases h : 3 ≤ a.val <;> simp [h, mul_assoc, hs]
  · rw [m2v_vec_strain]
    simp only [Except.bind, v2m_vec_strain]
    congr 1
    congr 1
    funext a
    by_cases h : 3 ≤ a.val <;> simp [h, mul_assoc, hs']
  · rw [m2v_mat_stiffness]
    simp only [Except.bind, v2m_mat_stiffness]
    congr 1
    congr 1
    funext a b
    by_cases ha : 3 ≤ a.val <;> by_cases hb : 3 ≤ b.val
    · simp [ha, hb, mul_assoc, hh]
    · have hb' : b.val < 3 := Nat.lt_of_not_le hb
      simp [ha, hb, hb', mul_assoc, hs]
    · have ha' : a.val < 3 := Nat.lt_of_not_le ha
      simp [ha, hb, ha', mul_assoc, hs]
    · have ha' : a.val < 3 := Nat.lt_of_not_le ha
      have hb' : b.val < 3 := Nat.lt_of_not_le hb
      simp [ha, hb, ha', hb']
  · rw [m2v_mat_compliance]
    simp only [Except.bind, v2m_mat_compliance]
    congr 1
    congr 1
    funext a b
    by_cases ha : 3 ≤ a.val <;> by_cases hb : 3 ≤ b.val
    · simp [ha, hb, mul_assoc, hh']
    · have hb' : b.val < 3 := Nat.lt_of_not_le hb
      simp [ha, hb, hb', mul_assoc, hs']
    · have ha' : a.val < 3 := Nat.lt_of_not_le ha
      simp [ha, hb, ha', mul_assoc, hs']
    · have ha' : a.val < 3 := Nat.lt_of_not_le ha
      have hb' : b.val < 3 := Nat.lt_of_not_le hb
      simp [ha, hb, ha', hb']

/-- **C9 (counterexample).** The claim "an error is raised if and only if
the quantity key is invalid" is false: `stiffness` is a valid key, yet on a
`(6,)`-shaped input the quadrant slice raises an index error (numpy
`IndexError`: too many indices for a 1-D array). -/
theorem voigt_error_despite_valid_key :
    "stiffness" ∈ valid_voigt_types ∧
      mandel6_to_voigt (.vec fun _ => 0) "stiffness" = .error .index :=
  ⟨by decide, m2v_vec_stiffness _⟩

/-- **C9 (amended).** A lookup error naming the quantity is raised iff the
key is outside {stress, strain, stiffness, compliance}; additionally an
index error is raised when a `(6,)`-shaped array is paired with the matrix
quantities `stiffness`/`compliance`; apart from that no shape validation
occurs: a `(6,6)` matrix passed with `stress` is processed without error,
with the vector shear scaling applied to the entire rows 3–5. -/
theorem voigt_error_conditions (x : VArr) (q : String) (m : Fin 6 → Fin 6 → Q2) :
    (mandel6_to_voigt x q = .error (.key q) ↔ q ∉ valid_voigt_types) ∧
    (voigt_to_mandel6 x q = .error (.key q) ↔ q ∉ valid_voigt_types) ∧
    (mandel6_to_voigt x q = .error .index ↔
      ((∃ v, x = .vec v) ∧ (q = "stiffness" ∨ q = "compliance"))) ∧
    (voigt_to_mandel6 x q = .error .index ↔
      ((∃ v, x = .vec v) ∧ (q = "stiffness" ∨ q = "compliance"))) ∧
    (mandel6_to_voigt (.mat m) "stress"
      = .ok (.mat fun a b => if 3 ≤ a.val then m a b * Q2.inv sqrt2 else m a b)) := by
  refine ⟨⟨fun h => ?_, fun h => m2v_unknown x q h⟩,
    ⟨fun h => ?_, fun h => v2m_unknown x q h⟩,
    ⟨fun h => ?_, ?_⟩, ⟨fun h => ?_, ?_⟩, m2v_mat_stress m⟩
  · by_contra hv
    simp only [valid_voigt_types, List.mem_cons, List.mem_singleton,
      List.not_mem_nil, or_false, not_not] at hv
    rcases hv with h1 | h1 | h1 | h1 <;> subst h1 <;> rcases x with v | mm <;>
      simp [m2v_vec_stress, m2v_vec_strain, m2v_vec_stiffness, m2v_vec_compliance,
        m2v_mat_stress, m2v_mat_strain, m2v_mat_stiffness, m2v_mat_compliance] at h
  · by_contra hv
    simp only [valid_voigt_types, List.mem_cons, List.mem_singleton,
      List.not_mem_nil, or_false, not_not] at hv
    rcases hv with h1 | h1 | h1 | h1 <;> subst h1 <;> rcases x with v | mm <;>
      simp [v2m_vec_stress, v2m_vec_strain, v2m_vec_stiffness, v2m_vec_compliance,
        v2m_mat_stress, v2m_mat_strain, v2m_mat_stiffness, v2m_mat_compliance] at h
  · by_cases hv : q ∈ valid_voigt_types
    · simp only [valid_voigt_types, List.mem_cons, List.mem_singleton,
        List.not_mem_nil, or_false] at hv
      rcases hv with h1 | h1 | h1 | h1 <;> subst h1 <;> rcases x with v | mm
      · simp [m2v_vec_stress] at h
      · simp [m2v_mat_stress] at h
      · simp [m2v_vec_strain] at h
      · simp [m2v_mat_strain] at h
      · exact ⟨⟨_, rfl⟩, Or.inl rfl⟩
      · simp [m2v_mat_stiffness] at h
      · exact ⟨⟨_, rfl⟩, Or.inr rfl⟩
      · simp [m2v_mat_compliance] at h
    · rw [m2v_unknown x q hv] at h
      simp at h
  · rintro ⟨⟨v, rfl⟩, hq | hq⟩ <;> subst hq
    · exact m2v_vec_stiffness v
    · exact m2v_vec_compliance v
  · by_cases hv : q ∈ valid_voigt_types
    · simp only [valid_voigt_types, List.mem_cons, List.mem_singleton,
        List.not_mem_nil, or_false] at hv
      rcases hv with h1 | h1 | h1 | h1 <;> subst h1 <;> rcases x with v | mm
      · simp [v2m_vec_stress] at h
      · simp [v2m_mat_stress] at h
      · simp [v2m_vec_strain] at h
      · simp [v2m_mat_strain] at h
      · exact ⟨⟨_, rfl⟩, Or.inl rfl⟩
      · simp [v2m_mat_stiffness] at h
      · exact ⟨⟨_, rfl⟩, Or.inr rfl⟩
      · simp [v2m_mat_compliance] at h
    · rw [v2m_unknown x q hv] at h
      simp at h
  · rintro ⟨⟨v, rfl⟩, hq | hq⟩ <;> subst hq
    · exact v2m_vec_stiffness v
    · exact v2m_vec_compliance v

end Mechkit
